import Mathlib

/-!
Verification of the `await-interactions` static-analysis rule
(`src/lib/rules/await-interactions.ts`).

The rule walks a parsed syntax tree, classifies certain call expressions as
interaction calls, checks whether each is awaited, and at end of traversal
emits one diagnostic (with a fix and an identical suggestion) per unawaited
classified call, provided every import in the file comes from the
`@storybook/` namespace.

The embedding models tree nodes as a mutually inductive type (`Node` with
its child list `NodeList`, so every analysis function is structurally
recursive and evaluates by kernel reduction).  Parent links of the original
tree are represented by passing, alongside each node, the list of its
ancestors ordered from the immediate parent up to the root: the head of that
list is `node.parent`, the second element is `node.parent.parent`, and so
on.  The external visitor mechanism (which the rule only consumes) is
modelled by `visit`, a pre-order walk firing the two registered node
handlers and threading the mutable rule state.
-/

namespace AwaitInteractions

mutual

/-- Syntax-tree nodes.  Constructors carry exactly the fields the rule reads:
`callee` of a call, `object`/`property` of a member access, `expression` of a
non-null assertion, `async` of the three function-like forms, `source` of
an import declaration, plus enough statement forms to build whole programs.
A `return` statement always carries its argument here; the argumentless form
has no children and is never the parent of a call, so it plays no role in
the analyzed behavior. -/
inductive Node where
  | identifier (name : String)
  | literal (value : String)
  | memberExpression (object : Node) (property : Node)
  | callExpression (callee : Node) (args : NodeList)
  | tsNonNullExpression (expression : Node)
  | awaitExpression (argument : Node)
  | arrowFunctionExpression (async : Bool) (body : Node)
  | functionExpression (async : Bool) (body : Node)
  | functionDeclaration (async : Bool) (body : Node)
  | returnStatement (argument : Node)
  | expressionStatement (expression : Node)
  | blockStatement (body : NodeList)
  | importDeclaration (source : String)
  | program (body : NodeList)

/-- A list of sibling child nodes. -/
inductive NodeList where
  | nil
  | cons (head : Node) (tail : NodeList)

end

/-- Builds a child list from a Lean list (for concrete example trees). -/
def NodeList.ofList : List Node → NodeList
  | [] => .nil
  | x :: xs => .cons x (NodeList.ofList xs)

/-- Modelled from the spec: the node-shape predicates of
`src/lib/utils/ast.ts` (not part of the given sources) are, per spec section
4.1, pure boolean tests of the kind tag of a node. -/
def isIdentifier : Node → Bool
  | .identifier _ => true
  | _ => false

/-- Modelled from the spec: kind test (spec section 4.1). -/
def isMemberExpression : Node → Bool
  | .memberExpression _ _ => true
  | _ => false

/-- Modelled from the spec: kind test (spec section 4.1). -/
def isCallExpression : Node → Bool
  | .callExpression _ _ => true
  | _ => false

/-- Modelled from the spec: kind test (spec section 4.1). -/
def isAwaitExpression : Node → Bool
  | .awaitExpression _ => true
  | _ => false

/-- Modelled from the spec: kind test (spec section 4.1). -/
def isTSNonNullExpression : Node → Bool
  | .tsNonNullExpression _ => true
  | _ => false

/-- Modelled from the spec: kind test (spec section 4.1). -/
def isArrowFunctionExpression : Node → Bool
  | .arrowFunctionExpression _ _ => true
  | _ => false

/-- Modelled from the spec: kind test (spec section 4.1). -/
def isFunctionExpression : Node → Bool
  | .functionExpression _ _ => true
  | _ => false

/-- Modelled from the spec: kind test (spec section 4.1). -/
def isFunctionDeclaration : Node → Bool
  | .functionDeclaration _ _ => true
  | _ => false

/-- Modelled from the spec: kind test (spec section 4.1). -/
def isReturnStatement : Node → Bool
  | .returnStatement _ => true
  | _ => false

/-- Modelled from the spec: kind test (spec section 4.1). -/
def isProgram : Node → Bool
  | .program _ => true
  | _ => false

/-- Lifts a kind test to a possibly absent node (`undefined` in the source is
falsy, so every kind test is false on it). -/
def isArrowFunctionExpressionOpt : Option Node → Bool
  | some n => isArrowFunctionExpression n
  | none => false

/-- Predicate `isReturnStatement` on a possibly absent node. -/
def isReturnStatementOpt : Option Node → Bool
  | some n => isReturnStatement n
  | none => false

/-- Predicate `isAwaitExpression` on a possibly absent node. -/
def isAwaitExpressionOpt : Option Node → Bool
  | some n => isAwaitExpression n
  | none => false

/-- JavaScript `String.prototype.startsWith`, expressed as a prefix test on
the underlying character lists so that it evaluates by kernel reduction. -/
def strStartsWith (s p : String) : Bool :=
  p.data.isPrefixOf s.data

/-- Constant `FUNCTIONS_TO_BE_AWAITED` (lines 56-64). -/
def FUNCTIONS_TO_BE_AWAITED : List String :=
  ["waitFor", "waitForElementToBeRemoved", "wait", "waitForElement",
   "waitForDomChange", "userEvent", "play"]

/-- Function `shouldAwait` (lines 67-69): exact membership in the fixed list,
or the name starts with `findBy`. -/
def shouldAwait (name : String) : Bool :=
  FUNCTIONS_TO_BE_AWAITED.contains name || strStartsWith name "findBy"

/-- Lines 76-82 of `getMethodThatShouldBeAwaited`: the callee is a member
access whose object is an identifier with a tracked name; returns the object
identifier. -/
def awaitedObjectBranch : Node → Option Node
  | .memberExpression (.identifier oname) _ =>
      if shouldAwait oname then some (.identifier oname) else none
  | _ => none

/-- Lines 84-91: the callee is a non-null assertion wrapping a member access
whose property is an identifier with a tracked name; returns the property
identifier. -/
def nonNullPropertyBranch : Node → Option Node
  | .tsNonNullExpression (.memberExpression _ (.identifier pname)) =>
      if shouldAwait pname then some (.identifier pname) else none
  | _ => none

/-- Lines 93-99: the callee is a member access whose property is an
identifier with a tracked name; returns the property identifier. -/
def memberPropertyBranch : Node → Option Node
  | .memberExpression _ (.identifier pname) =>
      if shouldAwait pname then some (.identifier pname) else none
  | _ => none

/-- Lines 101-109: the callee is a member access whose object is itself a
call to an identifier literally named `expect` and whose property is an
identifier; returns the property identifier.  Note the source applies no
tracked-name test in this branch. -/
def expectChainBranch : Node → Option Node
  | .memberExpression (.callExpression (.identifier cname) _) (.identifier pname) =>
      if cname = "expect" then some (.identifier pname) else none
  | _ => none

/-- Lines 111-113: the callee is itself an identifier with a tracked name. -/
def bareIdentifierBranch : Node → Option Node
  | .identifier nm => if shouldAwait nm then some (.identifier nm) else none
  | _ => none

/-- Function `getMethodThatShouldBeAwaited` (lines 66-116).  The sequence of
early-returning `if` statements over `expr.callee` in the source becomes a
first-success chain of the branch functions above; a non-call node has an
undefined `callee` on which every branch condition is false, hence `none`. -/
def getMethodThatShouldBeAwaited (parent : Option Node) (expr : Node) : Option Node :=
  if isArrowFunctionExpressionOpt parent || isReturnStatementOpt parent then
    none
  else
    match expr with
    | .callExpression callee _ =>
        (awaitedObjectBranch callee).orElse fun _ =>
        (nonNullPropertyBranch callee).orElse fun _ =>
        (memberPropertyBranch callee).orElse fun _ =>
        (expectChainBranch callee).orElse fun _ =>
        bareIdentifierBranch callee
    | _ => none

/-- Function `getClosestFunctionAncestor` (lines 118-131), expressed on the
ancestor list: the head of the list is `node.parent`, recursion on the tail
is the recursive call on the parent. -/
def getClosestFunctionAncestor : List Node → Option Node
  | [] => none
  | parent :: rest =>
      if isProgram parent then none
      else if isArrowFunctionExpression parent || isFunctionExpression parent ||
          isFunctionDeclaration parent then some parent
      else getClosestFunctionAncestor rest

/-- Function `isExpectFromStorybookImported` (lines 133-137). -/
def isExpectFromStorybookImported (source : String) : Bool :=
  strStartsWith source "@storybook/"

/-- A pending violation record of call node and method (line 147).  Because the
embedding represents parent links as ancestor lists, the record also keeps
the ancestors of the call node, which the end-of-traversal pass needs for
`getClosestFunctionAncestor(node)`. -/
structure Violation where
  node : Node
  ancestors : List Node
  method : Node

/-- The mutable per-file rule state: the gate flag
`isImportingFromStorybookExpect` (line 146) and the queue
`invocationsThatShouldBeAwaited` (line 147). -/
structure RuleState where
  isImportingFromStorybookExpect : Bool
  invocationsThatShouldBeAwaited : List Violation

/-- Initial state (lines 146-147): flag `true`, empty queue. -/
def initialState : RuleState := ⟨true, []⟩

/-- The `ImportDeclaration` visitor (lines 150-154). -/
def onImportDeclaration (source : String) (st : RuleState) : RuleState :=
  if !isExpectFromStorybookImported source then
    { st with isImportingFromStorybookExpect := false }
  else st

/-- The `CallExpression` visitor (lines 155-160).  `ancestors.head?` is
`node.parent` and `(ancestors.drop 1).head?` is `node.parent?.parent`. -/
def onCallExpression (ancestors : List Node) (node : Node) (st : RuleState) : RuleState :=
  match getMethodThatShouldBeAwaited ancestors.head? node with
  | some method =>
      if !isAwaitExpressionOpt ancestors.head? &&
          !isAwaitExpressionOpt (ancestors.drop 1).head? then
        { st with invocationsThatShouldBeAwaited :=
            st.invocationsThatShouldBeAwaited ++ [⟨node, ancestors, method⟩] }
      else st
  | none => st

/-- Fires the handler registered for the kind of the visited node, if any
(lines 149-160 register handlers for `ImportDeclaration` and
`CallExpression` only). -/
def dispatch (ancestors : List Node) (st : RuleState) (n : Node) : RuleState :=
  match n with
  | .importDeclaration source => onImportDeclaration source st
  | .callExpression _ _ => onCallExpression ancestors n st
  | _ => st

mutual

/-- The external visitor mechanism: a pre-order walk over the tree that fires
the registered `ImportDeclaration` and `CallExpression` handlers and
recurses into the children with the visited node pushed onto the ancestor
list. -/
def visit (ancestors : List Node) (st : RuleState) : Node → RuleState
  | n@(.identifier _) => dispatch ancestors st n
  | n@(.literal _) => dispatch ancestors st n
  | n@(.memberExpression o p) =>
      visit (n :: ancestors) (visit (n :: ancestors) (dispatch ancestors st n) o) p
  | n@(.callExpression c args) =>
      visitList (n :: ancestors) (visit (n :: ancestors) (dispatch ancestors st n) c) args
  | n@(.tsNonNullExpression e) => visit (n :: ancestors) (dispatch ancestors st n) e
  | n@(.awaitExpression a) => visit (n :: ancestors) (dispatch ancestors st n) a
  | n@(.arrowFunctionExpression _ b) => visit (n :: ancestors) (dispatch ancestors st n) b
  | n@(.functionExpression _ b) => visit (n :: ancestors) (dispatch ancestors st n) b
  | n@(.functionDeclaration _ b) => visit (n :: ancestors) (dispatch ancestors st n) b
  | n@(.returnStatement a) => visit (n :: ancestors) (dispatch ancestors st n) a
  | n@(.expressionStatement e) => visit (n :: ancestors) (dispatch ancestors st n) e
  | n@(.blockStatement body) => visitList (n :: ancestors) (dispatch ancestors st n) body
  | n@(.importDeclaration _) => dispatch ancestors st n
  | n@(.program body) => visitList (n :: ancestors) (dispatch ancestors st n) body

/-- Visits a list of sibling children in order. -/
def visitList (ancestors : List Node) (st : RuleState) : NodeList → RuleState
  | .nil => st
  | .cons x xs => visitList ancestors (visit ancestors st x) xs

end

/-- Membership test `async in parentFnNode` (line 166): which node kinds
carry an `async` field. -/
def nodeHasAsyncField : Node → Bool
  | .arrowFunctionExpression _ _ => true
  | .functionExpression _ _ => true
  | .functionDeclaration _ _ => true
  | _ => false

/-- Field read `parentFnNode.async` (line 166), false where the field is
absent. -/
def nodeAsyncValue : Node → Bool
  | .arrowFunctionExpression a _ => a
  | .functionExpression a _ => a
  | .functionDeclaration a _ => a
  | _ => false

/-- Condition `parentFnNeedsAsync` (lines 165-166): the enclosing function
exists and is not already marked `async`. -/
def parentFnNeedsAsync (parentFnNode : Option Node) : Bool :=
  match parentFnNode with
  | none => false
  | some f => !(nodeHasAsyncField f && nodeAsyncValue f)

/-- Patch function `fixFn` (lines 168-175) as the list of text insertions it
returns; an entry `(n, s)` is `fixer.insertTextBefore(n, s)`. -/
def fixFn (node : Node) (parentFnNode : Option Node) : List (Node × String) :=
  match parentFnNode with
  | some f =>
      if !(nodeHasAsyncField f && nodeAsyncValue f) then
        [(node, "await "), (f, "async ")]
      else [(node, "await ")]
  | none => [(node, "await ")]

/-- Field read `method.name` (line 181); the classifier only ever returns
identifier nodes. -/
def identName : Node → String
  | .identifier nm => nm
  | _ => ""

/-- One `context.report` payload (lines 177-190): anchor node, message id,
message data, fix, and suggestion list (message id plus patch). -/
structure Diagnostic where
  node : Node
  messageId : String
  dataMethod : String
  fix : List (Node × String)
  suggest : List (String × List (Node × String))

/-- The diagnostic built for one queued violation (lines 163-190). -/
def mkDiagnostic (v : Violation) : Diagnostic :=
  let parentFnNode := getClosestFunctionAncestor v.ancestors
  let fx := fixFn v.node parentFnNode
  { node := v.node
    messageId := "interactionShouldBeAwaited"
    dataMethod := identName v.method
    fix := fx
    suggest := [("fixSuggestion", fx)] }

/-- The `Program:exit` visitor (lines 161-193): when the gate flag is still
set and the queue is non-empty, report one diagnostic per queued entry. -/
def programExit (st : RuleState) : List Diagnostic :=
  if st.isImportingFromStorybookExpect &&
      !st.invocationsThatShouldBeAwaited.isEmpty then
    st.invocationsThatShouldBeAwaited.map mkDiagnostic
  else []

/-- Whole-file analysis: walk the program from the fresh per-file state, then
run `Program:exit`. -/
def analyze (prog : Node) : List Diagnostic :=
  programExit (visit [] initialState prog)

mutual

/-- True when the subtree contains an import declaration whose source does
not start with `@storybook/` (the condition under which the
`ImportDeclaration` handler clears the gate flag). -/
def containsBadImport : Node → Bool
  | .importDeclaration source => !isExpectFromStorybookImported source
  | .memberExpression o p => containsBadImport o || containsBadImport p
  | .callExpression c args => containsBadImport c || containsBadImportList args
  | .tsNonNullExpression e => containsBadImport e
  | .awaitExpression a => containsBadImport a
  | .arrowFunctionExpression _ b => containsBadImport b
  | .functionExpression _ b => containsBadImport b
  | .functionDeclaration _ b => containsBadImport b
  | .returnStatement a => containsBadImport a
  | .expressionStatement e => containsBadImport e
  | .blockStatement body => containsBadImportList body
  | .program body => containsBadImportList body
  | _ => false

/-- Version of `containsBadImport` over a list of children. -/
def containsBadImportList : NodeList → Bool
  | .nil => false
  | .cons x xs => containsBadImport x || containsBadImportList xs

end

/-- True exactly when this node itself is an import declaration whose source
clears the gate flag. -/
def isBadImportNode : Node → Bool
  | .importDeclaration source => !isExpectFromStorybookImported source
  | _ => false

/-- The three function-like forms recognised by `getClosestFunctionAncestor`
(lines 122-126). -/
def isFunctionLike (n : Node) : Bool :=
  isArrowFunctionExpression n || isFunctionExpression n || isFunctionDeclaration n

/-- The callee shapes named by the first testable property of the spec: a bare
identifier with a tracked name, or a member access whose property is an
identifier whose name is tracked or starts with `findBy` (both alternatives
of the tracked-name test are exactly `shouldAwait`). -/
def trackedCalleeShape : Node → Bool
  | .identifier nm => shouldAwait nm
  | .memberExpression _ (.identifier pname) => shouldAwait pname
  | _ => false

/-- Example call `userEvent.click(button)`. -/
def clickCall : Node :=
  .callExpression
    (.memberExpression (.identifier "userEvent") (.identifier "click"))
    (.cons (.identifier "button") .nil)

/-- Example call `expect(x).toBe(y)`: a chained call on `expect(...)` whose
final property name `toBe` is not in the tracked set. -/
def expectToBeCall : Node :=
  .callExpression
    (.memberExpression
      (.callExpression (.identifier "expect") (.cons (.identifier "x") .nil))
      (.identifier "toBe"))
    (.cons (.identifier "y") .nil)

lemma onCallExpression_flag (anc : List Node) (n : Node) (st : RuleState) :
    (onCallExpression anc n st).isImportingFromStorybookExpect
      = st.isImportingFromStorybookExpect := by
  unfold onCallExpression
  split
  case _ => split <;> rfl
  case _ => rfl

lemma onImportDeclaration_flag (s : String) (st : RuleState) :
    (onImportDeclaration s st).isImportingFromStorybookExpect
      = (st.isImportingFromStorybookExpect && isExpectFromStorybookImported s) := by
  unfold onImportDeclaration
  split <;> simp_all

lemma dispatch_flag (anc : List Node) (st : RuleState) (n : Node) :
    (dispatch anc st n).isImportingFromStorybookExpect
      = (st.isImportingFromStorybookExpect && !isBadImportNode n) := by
  cases n <;>
    simp [dispatch, isBadImportNode, onCallExpression_flag, onImportDeclaration_flag]

/-- Helper: after visiting a subtree, the gate flag equals its previous value
conjoined with the absence of a disqualifying import in that subtree. -/
lemma visit_flag (anc : List Node) (st : RuleState) (n : Node) :
    (visit anc st n).isImportingFromStorybookExpect
      = (st.isImportingFromStorybookExpect && !containsBadImport n) := by
  refine visit.induct
    (fun anc st n => (visit anc st n).isImportingFromStorybookExpect
      = (st.isImportingFromStorybookExpect && !containsBadImport n))
    (fun anc st ns => (visitList anc st ns).isImportingFromStorybookExpect
      = (st.isImportingFromStorybookExpect && !containsBadImportList ns))
    ?_ ?_ ?_ ?_ ?_ ?_ ?_ ?_ ?_ ?_ ?_ ?_ ?_ ?_ ?_ ?_ anc st n
  all_goals intros
  all_goals simp only [visit, visitList]
  all_goals simp_all only [containsBadImport, containsBadImportList, dispatch_flag, isBadImportNode]
  all_goals simp_all [Bool.and_assoc, Bool.not_or]

/-- C1 counterexample: the concrete chained call `expect(x).toBe(y)` has a
callee whose object is a call to the identifier `expect` and whose outer
property name `toBe` does not match the tracked set, yet the classifier
returns the property identifier; this refutes the claim that such a call is
not classified. -/
theorem c1_counterexample :
    getMethodThatShouldBeAwaited (some (Node.expressionStatement expectToBeCall))
        expectToBeCall
      = some (Node.identifier "toBe")
    ∧ shouldAwait "toBe" = false :=
  ⟨rfl, rfl⟩

/-- C1 (amended): for every call expression whose callee is a member access
whose object is itself a call to an identifier named `expect` and whose
property is an identifier, if the parent is neither an arrow function nor a
return statement then the classifier returns the outer property identifier,
whether or not the property name matches the tracked set: the tracked-name
test is not re-applied in this branch. -/
theorem c1_expect_chain_classified (cargs args : NodeList) (pname : String)
    (parent : Node)
    (hna : isArrowFunctionExpression parent = false)
    (hnr : isReturnStatement parent = false) :
    getMethodThatShouldBeAwaited (some parent)
      (Node.callExpression
        (Node.memberExpression
          (Node.callExpression (Node.identifier "expect") cargs)
          (Node.identifier pname))
        args)
      = some (Node.identifier pname) := by
  unfold getMethodThatShouldBeAwaited
  simp only [isArrowFunctionExpressionOpt, isReturnStatementOpt, hna, hnr,
    Bool.or_self, Bool.false_or, if_false]
  by_cases hp : shouldAwait pname <;>
    simp [awaitedObjectBranch, nonNullPropertyBranch, memberPropertyBranch,
      expectChainBranch, Option.orElse, hp]

/-- Witness for the amended C1 theorem at the concrete input
`expect(x).toBe(y)`. -/
theorem c1_expect_chain_classified_witness :
    getMethodThatShouldBeAwaited (some (Node.expressionStatement expectToBeCall))
      (Node.callExpression
        (Node.memberExpression
          (Node.callExpression (Node.identifier "expect")
            (.cons (.identifier "x") .nil))
          (Node.identifier "toBe"))
        (.cons (.identifier "y") .nil))
      = some (Node.identifier "toBe") :=
  c1_expect_chain_classified _ _ "toBe" _ rfl rfl

/-- C2: if any import statement in the file has a source that does not start
with `@storybook/`, the analysis emits zero diagnostics for that file,
regardless of how many unawaited classified calls were queued, including
violations recorded before that import statement was visited. -/
theorem c2_bad_import_suppresses (prog : Node)
    (h : containsBadImport prog = true) :
    analyze prog = [] := by
  unfold analyze programExit
  rw [visit_flag]
  simp [initialState, h]

/-- Witness for C2: a file whose unawaited interaction call precedes the
disqualifying import still yields no diagnostics. -/
theorem c2_witness :
    analyze (Node.program (NodeList.ofList
      [Node.expressionStatement clickCall,
       Node.importDeclaration "other-lib"])) = [] :=
  c2_bad_import_suppresses _ rfl

/-- C3: for every call expression whose callee is a bare identifier with a
tracked name, or a member access whose property identifier has a tracked
name or a `findBy` prefix, classification returns nothing when the
immediate parent is an arrow function or a return statement, and returns a
non-empty identifier otherwise. -/
theorem c3_tracked_shape (callee : Node) (args : NodeList) (parent : Node)
    (hshape : trackedCalleeShape callee = true) :
    ((isArrowFunctionExpression parent || isReturnStatement parent) = true →
      getMethodThatShouldBeAwaited (some parent)
        (Node.callExpression callee args) = none)
    ∧ ((isArrowFunctionExpression parent || isReturnStatement parent) = false →
      (getMethodThatShouldBeAwaited (some parent)
        (Node.callExpression callee args)).isSome = true) := by
  constructor
  · intro h
    unfold getMethodThatShouldBeAwaited
    simp [isArrowFunctionExpressionOpt, isReturnStatementOpt, h]
  · intro h
    unfold getMethodThatShouldBeAwaited
    simp only [isArrowFunctionExpressionOpt, isReturnStatementOpt, h, if_false]
    unfold trackedCalleeShape at hshape
    split at hshape
    · simp [awaitedObjectBranch, nonNullPropertyBranch, memberPropertyBranch,
        expectChainBranch, bareIdentifierBranch, Option.orElse, hshape]
    · rename_i callee0 obj pname
      cases hb : awaitedObjectBranch (Node.memberExpression obj (Node.identifier pname)) with
      | some m => simp [Option.orElse, hb]
      | none =>
          simp [Option.orElse, hb, nonNullPropertyBranch, memberPropertyBranch, hshape]
    · simp at hshape

/-- Witness for C3 at the concrete call `screen.findByRole()` inside an
expression statement. -/
theorem c3_witness :
    (getMethodThatShouldBeAwaited
      (some (Node.expressionStatement (Node.identifier "q")))
      (Node.callExpression
        (Node.memberExpression (Node.identifier "screen")
          (Node.identifier "findByRole"))
        .nil)).isSome = true :=
  (c3_tracked_shape
    (Node.memberExpression (Node.identifier "screen") (Node.identifier "findByRole"))
    .nil
    (Node.expressionStatement (Node.identifier "q"))
    (by rfl)).2 (by rfl)

/-- C4: a classified call expression leaves the violation queue unchanged
exactly when its immediate parent or its grandparent is an await
expression; in that awaited case the handler leaves the whole rule state
unchanged, so the call is never enqueued and hence never reported. -/
theorem c4_enqueued_iff_not_awaited (anc : List Node) (node m : Node)
    (st : RuleState)
    (hm : getMethodThatShouldBeAwaited anc.head? node = some m) :
    (((onCallExpression anc node st).invocationsThatShouldBeAwaited
        = st.invocationsThatShouldBeAwaited
      ↔ (isAwaitExpressionOpt anc.head?
          || isAwaitExpressionOpt (anc.drop 1).head?) = true)
    ∧ ((isAwaitExpressionOpt anc.head?
          || isAwaitExpressionOpt (anc.drop 1).head?) = true →
        onCallExpression anc node st = st)) := by
  unfold onCallExpression
  rw [hm]
  cases hp : isAwaitExpressionOpt anc.head? <;>
    cases hg : isAwaitExpressionOpt (anc.drop 1).head? <;>
      simp [hp, hg]

/-- Witness for C4: a `waitFor()` call directly under an await expression is
not enqueued. -/
theorem c4_witness :
    ((onCallExpression
        [Node.awaitExpression (Node.callExpression (Node.identifier "waitFor") .nil)]
        (Node.callExpression (Node.identifier "waitFor") .nil)
        initialState).invocationsThatShouldBeAwaited
      = initialState.invocationsThatShouldBeAwaited) :=
  (c4_enqueued_iff_not_awaited
    [Node.awaitExpression (Node.callExpression (Node.identifier "waitFor") .nil)]
    (Node.callExpression (Node.identifier "waitFor") .nil)
    (Node.identifier "waitFor") initialState rfl).1.mpr rfl

/-- C8: the gate flag is initialized true, and once false it stays false
through any further visiting: no visit handler ever sets it back to
true. -/
theorem c8_gate_monotone :
    initialState.isImportingFromStorybookExpect = true
    ∧ ∀ (anc : List Node) (st : RuleState) (n : Node),
        st.isImportingFromStorybookExpect = false →
        (visit anc st n).isImportingFromStorybookExpect = false := by
  refine ⟨rfl, ?_⟩
  intro anc st n h
  rw [visit_flag, h]
  simp

/-- Witness for C8: visiting a file from a state with a cleared flag leaves
the flag cleared even though every import is from `@storybook/`. -/
theorem c8_witness :
    (visit [] ⟨false, []⟩
      (Node.program (NodeList.ofList
        [Node.importDeclaration "@storybook/test"]))).isImportingFromStorybookExpect
      = false :=
  c8_gate_monotone.2 [] ⟨false, []⟩ _ rfl

/-- C10: a classified call whose grandparent is an await expression is
treated as awaited whatever the shape of the intervening parent node; the
handler leaves the rule state unchanged. -/
theorem c10_grandparent_await_any_parent (parent g : Node) (rest : List Node)
    (node m : Node) (st : RuleState)
    (hm : getMethodThatShouldBeAwaited (some parent) node = some m)
    (hg : isAwaitExpression g = true) :
    onCallExpression (parent :: g :: rest) node st = st := by
  unfold onCallExpression
  simp only [List.head?, List.drop]
  rw [hm]
  simp [isAwaitExpressionOpt, hg]

/-- Witness for C10: `userEvent.click(button)` as an argument of a call that
is itself awaited produces no violation. -/
theorem c10_witness :
    onCallExpression
      [Node.callExpression (Node.identifier "foo") (.cons clickCall .nil),
       Node.awaitExpression
         (Node.callExpression (Node.identifier "foo") (.cons clickCall .nil))]
      clickCall initialState = initialState :=
  c10_grandparent_await_any_parent
    (Node.callExpression (Node.identifier "foo") (.cons clickCall .nil))
    (Node.awaitExpression
      (Node.callExpression (Node.identifier "foo") (.cons clickCall .nil)))
    [] clickCall (Node.identifier "userEvent") initialState rfl rfl


/-- Helper: the scope resolver only ever returns nodes that carry an `async`
field (the three function-like forms). -/
lemma gcfa_hasAsyncField (anc : List Node) (f : Node)
    (h : getClosestFunctionAncestor anc = some f) :
    nodeHasAsyncField f = true := by
  induction anc with
  | nil => simp [getClosestFunctionAncestor] at h
  | cons parent rest ih =>
      unfold getClosestFunctionAncestor at h
      split at h
      · exact absurd h (by simp)
      · split at h
        · rename_i hfn
          cases h
          cases f <;> simp_all [isArrowFunctionExpression,
            isFunctionExpression, isFunctionDeclaration, nodeHasAsyncField]
        · exact ih h

/-- C5: when the gate flag is still set, the end-of-traversal pass emits
exactly one diagnostic per queued violation, in order; each diagnostic is
anchored at the call node, carries the literal name of the matched
identifier as message data, a non-empty fix, and exactly one suggestion
whose patch is the identical fix. -/
theorem c5_one_diagnostic_per_violation (st : RuleState)
    (h : st.isImportingFromStorybookExpect = true) :
    programExit st = st.invocationsThatShouldBeAwaited.map mkDiagnostic
    ∧ ∀ v : Violation,
        (mkDiagnostic v).node = v.node
        ∧ (mkDiagnostic v).messageId = "interactionShouldBeAwaited"
        ∧ (mkDiagnostic v).dataMethod = identName v.method
        ∧ (mkDiagnostic v).fix ≠ []
        ∧ (mkDiagnostic v).suggest = [("fixSuggestion", (mkDiagnostic v).fix)] := by
  constructor
  · unfold programExit
    rw [h]
    cases hq : st.invocationsThatShouldBeAwaited <;> simp [hq]
  · intro v
    refine ⟨rfl, rfl, rfl, ?_, rfl⟩
    unfold mkDiagnostic fixFn
    cases getClosestFunctionAncestor v.ancestors with
    | none => simp
    | some f =>
        dsimp only
        split <;> simp

/-- Witness for C5 on a state with one queued violation. -/
theorem c5_witness :
    programExit ⟨true, [⟨clickCall, [], Node.identifier "userEvent"⟩]⟩
      = [mkDiagnostic ⟨clickCall, [], Node.identifier "userEvent"⟩] := by
  rw [(c5_one_diagnostic_per_violation
    ⟨true, [⟨clickCall, [], Node.identifier "userEvent"⟩]⟩ rfl).1]
  rfl

/-- C6: for every violation whose nearest enclosing function exists and is
not marked asynchronous, the fix inserts `await ` before the call and
`async ` before that function node exactly once; when no enclosing function
exists, or it is already asynchronous, the fix inserts only `await ` before
the call. -/
theorem c6_async_marker (v : Violation) (f : Node) :
    ((getClosestFunctionAncestor v.ancestors = some f →
        nodeAsyncValue f = false →
        (mkDiagnostic v).fix = [(v.node, "await "), (f, "async ")])
    ∧ (getClosestFunctionAncestor v.ancestors = some f →
        nodeAsyncValue f = true →
        (mkDiagnostic v).fix = [(v.node, "await ")])
    ∧ (getClosestFunctionAncestor v.ancestors = none →
        (mkDiagnostic v).fix = [(v.node, "await ")])) := by
  refine ⟨?_, ?_, ?_⟩
  · intro hf ha
    have hfield := gcfa_hasAsyncField v.ancestors f hf
    unfold mkDiagnostic fixFn
    rw [hf]
    simp [hfield, ha]
  · intro hf ha
    have hfield := gcfa_hasAsyncField v.ancestors f hf
    unfold mkDiagnostic fixFn
    rw [hf]
    simp [hfield, ha]
  · intro hf
    unfold mkDiagnostic fixFn
    rw [hf]

/-- Witness for C6: a violation inside a function declaration that is not
asynchronous gets both insertions. -/
theorem c6_witness :
    (mkDiagnostic ⟨clickCall,
        [Node.blockStatement (NodeList.ofList [Node.expressionStatement clickCall]),
         Node.functionDeclaration false
           (Node.blockStatement (NodeList.ofList [Node.expressionStatement clickCall])),
         Node.program .nil],
        Node.identifier "userEvent"⟩).fix
      = [(clickCall, "await "),
         (Node.functionDeclaration false
           (Node.blockStatement (NodeList.ofList [Node.expressionStatement clickCall])),
          "async ")] :=
  (c6_async_marker _ _).1 rfl rfl

/-- C7: over the ancestor chain, the scope resolver returns the nearest
function-like ancestor (arrow function, function expression, or function
declaration), unless the program root or the end of the chain is reached
first, in which case it returns nothing; intermediate non-function nodes of
any depth are skipped. -/
theorem c7_scope_resolver (anc : List Node) :
    getClosestFunctionAncestor anc =
      match anc.find? (fun n => isProgram n || isFunctionLike n) with
      | some f => if isFunctionLike f then some f else none
      | none => none := by
  induction anc with
  | nil => rfl
  | cons parent rest ih =>
      unfold getClosestFunctionAncestor
      by_cases hp : isProgram parent
      · have hf : isFunctionLike parent = false := by
          cases parent <;> simp_all [isProgram, isFunctionLike,
            isArrowFunctionExpression, isFunctionExpression, isFunctionDeclaration]
        rw [List.find?_cons_of_pos _ (by simp [hp])]
        simp [hp, hf]
      · by_cases hfn : isFunctionLike parent
        · have hfn2 : (isArrowFunctionExpression parent || isFunctionExpression parent
              || isFunctionDeclaration parent) = true := hfn
          rw [List.find?_cons_of_pos _ (by simp [hfn])]
          simp [hp, hfn, hfn2]
        · have hfn2 : (isArrowFunctionExpression parent || isFunctionExpression parent
              || isFunctionDeclaration parent) = false := by
            simpa [isFunctionLike] using hfn
          rw [List.find?_cons_of_neg _ (by simp [hp, hfn])]
          rw [ih.symm]
          simp [hp, hfn2]


/-- Helper: the import handler never touches the violation queue. -/
lemma onImportDeclaration_queue (s : String) (st : RuleState) :
    (onImportDeclaration s st).invocationsThatShouldBeAwaited
      = st.invocationsThatShouldBeAwaited := by
  unfold onImportDeclaration
  split <;> rfl

/-- Helper: any violation present after one handler dispatch was already
queued or is anchored at the dispatched node. -/
lemma dispatch_queue (anc : List Node) (st : RuleState) (n : Node)
    (m : Violation)
    (hm : m ∈ (dispatch anc st n).invocationsThatShouldBeAwaited) :
    m ∈ st.invocationsThatShouldBeAwaited ∨ m.node = n := by
  cases n <;> simp only [dispatch] at hm
  all_goals try exact Or.inl hm
  · -- callExpression
    unfold onCallExpression at hm
    split at hm
    · split at hm
      · simp at hm
        rcases hm with h | h
        · exact Or.inl h
        · right
          rw [h]
      · exact Or.inl hm
    · exact Or.inl hm
  · -- importDeclaration
    rw [onImportDeclaration_queue] at hm
    exact Or.inl hm

/-- Helper: any violation present after visiting a subtree was already
queued or is anchored at a node of that subtree (bounded by its size). -/
lemma visit_queue_size :
    ∀ (anc : List Node) (st : RuleState) (n : Node) (m : Violation),
      m ∈ (visit anc st n).invocationsThatShouldBeAwaited →
      m ∈ st.invocationsThatShouldBeAwaited ∨ sizeOf m.node ≤ sizeOf n := by
  refine visit.induct
    (fun anc st n => ∀ m, m ∈ (visit anc st n).invocationsThatShouldBeAwaited →
      m ∈ st.invocationsThatShouldBeAwaited ∨ sizeOf m.node ≤ sizeOf n)
    (fun anc st ns => ∀ m, m ∈ (visitList anc st ns).invocationsThatShouldBeAwaited →
      m ∈ st.invocationsThatShouldBeAwaited ∨ sizeOf m.node ≤ sizeOf ns)
    ?_ ?_ ?_ ?_ ?_ ?_ ?_ ?_ ?_ ?_ ?_ ?_ ?_ ?_ ?_ ?_
  -- identifier
  · intro anc st name m hm
    simp only [visit] at hm
    rcases dispatch_queue _ _ _ _ hm with h | h
    · exact Or.inl h
    · right; rw [h]
  -- literal
  · intro anc st v m hm
    simp only [visit] at hm
    rcases dispatch_queue _ _ _ _ hm with h | h
    · exact Or.inl h
    · right; rw [h]
  -- memberExpression
  · intro anc st o p iho ihp m hm
    simp only [visit] at hm
    rcases ihp m hm with h | h
    · rcases iho m h with h2 | h2
      · rcases dispatch_queue _ _ _ _ h2 with h3 | h3
        · exact Or.inl h3
        · right; rw [h3]
      · right; simp; omega
    · right; simp; omega
  -- callExpression
  · intro anc st c args ihc ihargs m hm
    simp only [visit] at hm
    rcases ihargs m hm with h | h
    · rcases ihc m h with h2 | h2
      · rcases dispatch_queue _ _ _ _ h2 with h3 | h3
        · exact Or.inl h3
        · right; rw [h3]
      · right; simp; omega
    · right; simp; omega
  -- tsNonNullExpression
  · intro anc st e ihe m hm
    simp only [visit] at hm
    rcases ihe m hm with h | h
    · rcases dispatch_queue _ _ _ _ h with h2 | h2
      · exact Or.inl h2
      · right; rw [h2]
    · right; simp; omega
  -- awaitExpression
  · intro anc st a iha m hm
    simp only [visit] at hm
    rcases iha m hm with h | h
    · rcases dispatch_queue _ _ _ _ h with h2 | h2
      · exact Or.inl h2
      · right; rw [h2]
    · right; simp; omega
  -- arrowFunctionExpression
  · intro anc st async b ihb m hm
    simp only [visit] at hm
    rcases ihb m hm with h | h
    · rcases dispatch_queue _ _ _ _ h with h2 | h2
      · exact Or.inl h2
      · right; rw [h2]
    · right; simp; omega
  -- functionExpression
  · intro anc st async b ihb m hm
    simp only [visit] at hm
    rcases ihb m hm with h | h
    · rcases dispatch_queue _ _ _ _ h with h2 | h2
      · exact Or.inl h2
      · right; rw [h2]
    · right; simp; omega
  -- functionDeclaration
  · intro anc st async b ihb m hm
    simp only [visit] at hm
    rcases ihb m hm with h | h
    · rcases dispatch_queue _ _ _ _ h with h2 | h2
      · exact Or.inl h2
      · right; rw [h2]
    · right; simp; omega
  -- returnStatement
  · intro anc st a iha m hm
    simp only [visit] at hm
    rcases iha m hm with h | h
    · rcases dispatch_queue _ _ _ _ h with h2 | h2
      · exact Or.inl h2
      · right; rw [h2]
    · right; simp; omega
  -- expressionStatement
  · intro anc st e ihe m hm
    simp only [visit] at hm
    rcases ihe m hm with h | h
    · rcases dispatch_queue _ _ _ _ h with h2 | h2
      · exact Or.inl h2
      · right; rw [h2]
    · right; simp; omega
  -- blockStatement
  · intro anc st body ihb m hm
    simp only [visit] at hm
    rcases ihb m hm with h | h
    · rcases dispatch_queue _ _ _ _ h with h2 | h2
      · exact Or.inl h2
      · right; rw [h2]
    · right; simp; omega
  -- importDeclaration
  · intro anc st source m hm
    simp only [visit] at hm
    rcases dispatch_queue _ _ _ _ hm with h | h
    · exact Or.inl h
    · right; rw [h]
  -- program
  · intro anc st body ihb m hm
    simp only [visit] at hm
    rcases ihb m hm with h | h
    · rcases dispatch_queue _ _ _ _ h with h2 | h2
      · exact Or.inl h2
      · right; rw [h2]
    · right; simp; omega
  -- nil
  · intro anc st m hm
    simp only [visitList] at hm
    exact Or.inl hm
  -- cons
  · intro anc st x xs ihx ihxs m hm
    simp only [visitList] at hm
    rcases ihxs m hm with h | h
    · rcases ihx m h with h2 | h2
      · exact Or.inl h2
      · right; simp; omega
    · right; simp; omega


/-- Helper: the list version of the queue-size property of `visit`. -/
lemma visitList_queue_size : ∀ (anc : List Node) (ns : NodeList)
    (st : RuleState) (m : Violation),
    m ∈ (visitList anc st ns).invocationsThatShouldBeAwaited →
    m ∈ st.invocationsThatShouldBeAwaited ∨ sizeOf m.node ≤ sizeOf ns
  | anc, .nil, st, m => by
      intro hm
      simp only [visitList] at hm
      exact Or.inl hm
  | anc, .cons x xs, st, m => by
      intro hm
      simp only [visitList] at hm
      rcases visitList_queue_size anc xs _ m hm with h | h
      · rcases visit_queue_size _ _ _ _ h with h2 | h2
        · exact Or.inl h2
        · right; simp; omega
      · right; simp; omega

/-- Helper: the call handler records nothing when the immediate parent is an
await expression. -/
lemma onCallExpression_await_parent (x : Node) (anc : List Node) (node : Node)
    (st : RuleState) :
    onCallExpression (Node.awaitExpression x :: anc) node st = st := by
  unfold onCallExpression
  split
  · simp [isAwaitExpressionOpt, isAwaitExpression]
  · rfl

/-- Helper: dispatching any node whose immediate parent is an await
expression leaves the violation queue unchanged. -/
lemma dispatch_await_parent_queue (x : Node) (anc : List Node) (st : RuleState)
    (node : Node) :
    (dispatch (Node.awaitExpression x :: anc) st node).invocationsThatShouldBeAwaited
      = st.invocationsThatShouldBeAwaited := by
  cases node <;>
    simp [dispatch, onCallExpression_await_parent, onImportDeclaration_queue]

/-- C9: the primary fix is idempotent under re-analysis: once the call node
is wrapped in an await expression (the patched syntax after inserting
`await `), walking the patched tree adds no violation anchored at that
call, so no diagnostic is produced for that call site. -/
theorem c9_fix_idempotent (anc : List Node) (st : RuleState) (node : Node)
    (m : Violation)
    (hm : m ∈ (visit anc st
        (Node.awaitExpression node)).invocationsThatShouldBeAwaited)
    (hnode : m.node = node) :
    m ∈ st.invocationsThatShouldBeAwaited := by
  simp only [visit] at hm
  have hd : dispatch anc st (Node.awaitExpression node) = st := rfl
  rw [hd] at hm
  cases node with
  | identifier name =>
      simp only [visit] at hm
      rw [dispatch_await_parent_queue] at hm
      exact hm
  | literal v =>
      simp only [visit] at hm
      rw [dispatch_await_parent_queue] at hm
      exact hm
  | memberExpression o p =>
      simp only [visit] at hm
      rcases visit_queue_size _ _ _ _ hm with h | h
      · rcases visit_queue_size _ _ _ _ h with h2 | h2
        · rw [dispatch_await_parent_queue] at h2
          exact h2
        · exfalso; rw [hnode] at h2; simp at h2; omega
      · exfalso; rw [hnode] at h; simp at h
  | callExpression c args =>
      simp only [visit] at hm
      rcases visitList_queue_size _ _ _ _ hm with h | h
      · rcases visit_queue_size _ _ _ _ h with h2 | h2
        · rw [dispatch_await_parent_queue] at h2
          exact h2
        · exfalso; rw [hnode] at h2; simp at h2; omega
      · exfalso; rw [hnode] at h; simp at h
  | tsNonNullExpression e =>
      simp only [visit] at hm
      rcases visit_queue_size _ _ _ _ hm with h | h
      · rw [dispatch_await_parent_queue] at h
        exact h
      · exfalso; rw [hnode] at h; simp at h
  | awaitExpression a =>
      simp only [visit] at hm
      rcases visit_queue_size _ _ _ _ hm with h | h
      · rw [dispatch_await_parent_queue] at h
        exact h
      · exfalso; rw [hnode] at h; simp at h
  | arrowFunctionExpression async b =>
      simp only [visit] at hm
      rcases visit_queue_size _ _ _ _ hm with h | h
      · rw [dispatch_await_parent_queue] at h
        exact h
      · exfalso; rw [hnode] at h; simp at h
  | functionExpression async b =>
      simp only [visit] at hm
      rcases visit_queue_size _ _ _ _ hm with h | h
      · rw [dispatch_await_parent_queue] at h
        exact h
      · exfalso; rw [hnode] at h; simp at h
  | functionDeclaration async b =>
      simp only [visit] at hm
      rcases visit_queue_size _ _ _ _ hm with h | h
      · rw [dispatch_await_parent_queue] at h
        exact h
      · exfalso; rw [hnode] at h; simp at h
  | returnStatement a =>
      simp only [visit] at hm
      rcases visit_queue_size _ _ _ _ hm with h | h
      · rw [dispatch_await_parent_queue] at h
        exact h
      · exfalso; rw [hnode] at h; simp at h
  | expressionStatement e =>
      simp only [visit] at hm
      rcases visit_queue_size _ _ _ _ hm with h | h
      · rw [dispatch_await_parent_queue] at h
        exact h
      · exfalso; rw [hnode] at h; simp at h
  | blockStatement body =>
      simp only [visit] at hm
      rcases visitList_queue_size _ _ _ _ hm with h | h
      · rw [dispatch_await_parent_queue] at h
        exact h
      · exfalso; rw [hnode] at h; simp at h
  | importDeclaration source =>
      simp only [visit] at hm
      rw [dispatch_await_parent_queue] at hm
      exact hm
  | program body =>
      simp only [visit] at hm
      rcases visitList_queue_size _ _ _ _ hm with h | h
      · rw [dispatch_await_parent_queue] at h
        exact h
      · exfalso; rw [hnode] at h; simp at h

/-- Witness for C9: re-analyzing an awaited `userEvent.click(button)` adds no
violation for it. -/
theorem c9_witness :
    (⟨clickCall, [], Node.identifier "userEvent"⟩ : Violation)
      ∈ (⟨true, [⟨clickCall, [], Node.identifier "userEvent"⟩]⟩
          : RuleState).invocationsThatShouldBeAwaited :=
  c9_fix_idempotent [] ⟨true, [⟨clickCall, [], Node.identifier "userEvent"⟩]⟩
    clickCall ⟨clickCall, [], Node.identifier "userEvent"⟩
    (by
      rw [show (visit [] ⟨true, [⟨clickCall, [], Node.identifier "userEvent"⟩]⟩
          (Node.awaitExpression clickCall)).invocationsThatShouldBeAwaited
        = [⟨clickCall, [], Node.identifier "userEvent"⟩] from rfl]
      exact List.mem_singleton.mpr rfl)
    rfl


end AwaitInteractions
